import Mathlib

/-!
Shallow embedding of the Swarm Coordination Engine of AutoGrid OS
(`src/modules/SwarmIntelligence.ts`), restricted to the state and the
operations that the verified properties are about: membership and
leadership, coordinated actions and their completion reports, the
pheromone store with its decay sweep, messaging counters, and the
`SwarmIntelligence` module that owns the swarms.

Modelling conventions:
* JavaScript `Map`s (insertion ordered) become lists in insertion order;
  `set` replaces an existing entry in place or appends, `delete` filters.
* `Date.now()` and `uuidv4()` become explicit `now : Int` and
  `fresh : String` parameters.
* JS numbers used for strengths and contributions become `Rat` / `Int`;
  the `x || default` idiom (which treats `0` as unset) is translated
  explicitly.
* Event-emitter emissions become an explicit `Event` list returned by
  each operation, in emission order.
* The geometric formation-position table written by `coordinatedAction`
  (`this.formationPositions`, trigonometry over floats) is not read by
  any verified property and is not modelled.
-/

namespace AutoGridSwarm

structure Location where
  x : ℚ
  y : ℚ
  z : Option ℚ
deriving DecidableEq

structure Velocity where
  vx : ℚ
  vy : ℚ
deriving DecidableEq

inductive Role
  | leader
  | member
  | scout
  | carrier
deriving DecidableEq

inductive MemberState
  | active
  | waiting
  | busy
  | offline
deriving DecidableEq

inductive SwarmLifecycle
  | forming
  | ready
  | executing
  | dispersing
  | dissolved
deriving DecidableEq

inductive FormationType
  | line
  | circle
  | wedge
  | grid
  | surround
  | convoy
  | scatter
deriving DecidableEq

inductive PheromoneType
  | success
  | danger
  | resource
  | explored
deriving DecidableEq

inductive ActionTiming
  | synchronized
  | sequential
  | adaptive
deriving DecidableEq

inductive ActionStatus
  | pending
  | executing
  | completed
  | failed
deriving DecidableEq

structure SwarmMember where
  deviceId : String
  role : Role
  location : Location
  velocity : Velocity
  state : MemberState
  assignedSector : Option ℕ
  lastUpdate : ℤ
  contribution : ℤ
deriving DecidableEq

structure PheromoneTrail where
  id : String
  path : List Location
  strength : ℚ
  type : PheromoneType
  createdBy : String
  createdAt : ℤ
  expiresAt : ℤ
deriving DecidableEq

structure CoordinatedAction where
  actionId : String
  type : String
  target : Location
  formation : FormationType
  participants : List String
  timing : ActionTiming
  status : ActionStatus
  startTime : Option ℤ
  completedBy : List String
deriving DecidableEq

/-- Events emitted by the swarm (the payloads are reduced to the fields
the properties observe). -/
inductive Event
  | swarmReady (memberCount : ℕ)
  | memberJoined (deviceId : String)
  | memberLeft (deviceId : String)
  | memberUpdated (deviceId : String)
  | leaderElected (deviceId : String)
  | swarmUnderstaffed (current required : ℕ)
  | actionStarted (actionId : String)
  | actionCompleted (actionId : String)
  | actionTimeout (actionId : String)
  | pheromoneDeposited (trailId : String)
  | pheromoneExpired (trailId : String)
  | pheromoneFaded (trailId : String)
  | messageBroadcast
  | metricsUpdated
  | swarmDissolved
deriving DecidableEq

/-- The mutable state of one `Swarm` instance together with the parts of
its `SwarmConfig` that the modelled operations read.  `messages` is the
length of the message log, `messagesExchanged` the metrics counter. -/
structure SwarmState where
  members : List SwarmMember
  pheromones : List PheromoneTrail
  actions : List CoordinatedAction
  state : SwarmLifecycle
  leaderId : Option String
  messages : ℕ
  messagesExchanged : ℕ
  minDevices : ℕ
  maxDevices : Option ℕ
  pheromoneDecay : Option ℚ
deriving DecidableEq

-- ==================== Ordered-map helpers ====================

/-- `Map.set` on the member map: replace in place or append. -/
def setMember : List SwarmMember → SwarmMember → List SwarmMember
  | [], m => [m]
  | x :: xs, m => if x.deviceId = m.deviceId then m :: xs else x :: setMember xs m

/-- `Map.get` on the member map. -/
def findMember : List SwarmMember → String → Option SwarmMember
  | [], _ => none
  | x :: xs, d => if x.deviceId = d then some x else findMember xs d

/-- `Map.delete` on the member map. -/
def delMember (ms : List SwarmMember) (d : String) : List SwarmMember :=
  ms.filter (fun m => ¬ m.deviceId = d)

/-- `member.contribution += k` on the object fetched from the map. -/
def bumpContribution : List SwarmMember → String → ℤ → List SwarmMember
  | [], _, _ => []
  | m :: ms, d, k =>
      if m.deviceId = d then { m with contribution := m.contribution + k } :: ms
      else m :: bumpContribution ms d k

/-- `member.role = r` on the object fetched from the map. -/
def setRole : List SwarmMember → String → Role → List SwarmMember
  | [], _, _ => []
  | m :: ms, d, r =>
      if m.deviceId = d then { m with role := r } :: ms
      else m :: setRole ms d r

def memberIds (ms : List SwarmMember) : List String :=
  ms.map (fun m => m.deviceId)

def findAction : List CoordinatedAction → String → Option CoordinatedAction
  | [], _ => none
  | a :: as, i => if a.actionId = i then some a else findAction as i

/-- `Map.set` on the action map: replace in place or append. -/
def setAction : List CoordinatedAction → String → CoordinatedAction → List CoordinatedAction
  | [], _, b => [b]
  | a :: as, i, b => if a.actionId = i then b :: as else a :: setAction as i b

def setTrail : List PheromoneTrail → PheromoneTrail → List PheromoneTrail
  | [], t => [t]
  | x :: xs, t => if x.id = t.id then t :: xs else x :: setTrail xs t

/-- Contribution of a device, `none` when it is not a member. -/
def contributionOf (ms : List SwarmMember) (d : String) : Option ℤ :=
  (findMember ms d).map (fun m => m.contribution)

-- ==================== Member management ====================

/-- `this.config.maxDevices && this.members.size >= this.config.maxDevices`:
a configured maximum of `0` is falsy in JS and imposes no cap. -/
def capacityFull (s : SwarmState) : Prop :=
  match s.maxDevices with
  | none => False
  | some m => ¬ m = 0 ∧ m ≤ s.members.length

instance (s : SwarmState) : Decidable (capacityFull s) := by
  unfold capacityFull
  cases s.maxDevices <;> infer_instance

/-- `Swarm.join` (SwarmIntelligence.ts:173-210). -/
def join (s : SwarmState) (d : String) (loc : Location) (role? : Option Role)
    (now : ℤ) : Bool × SwarmState × List Event :=
  if s.state = SwarmLifecycle.dissolved then (false, s, [])
  else if capacityFull s then (false, s, [])
  else
    let baseRole := role?.getD (if s.members.length = 0 then Role.leader else Role.member)
    let m0 : SwarmMember :=
      { deviceId := d, role := baseRole, location := loc
        velocity := { vx := 0, vy := 0 }, state := MemberState.active
        assignedSector := none, lastUpdate := now, contribution := 0 }
    let ms1 := setMember s.members m0
    let becomesLeader := s.leaderId = none ∧ ms1.length = 1
    let ms2 := if becomesLeader then setRole ms1 d Role.leader else ms1
    let leader1 := if becomesLeader then some d else s.leaderId
    let ready := s.state = SwarmLifecycle.forming ∧ s.minDevices ≤ ms1.length
    let st1 := if ready then SwarmLifecycle.ready else s.state
    let evReady := if ready then [Event.swarmReady ms1.length] else []
    (true,
     { s with members := ms2, leaderId := leader1, state := st1 },
     evReady ++ [Event.memberJoined d, Event.metricsUpdated])

/-- Body of the leader-election loop in `Swarm.electNewLeader`
(SwarmIntelligence.ts:930-947): running best candidate and highest
contribution, updated on strict improvement. -/
def pickGo (best : Option SwarmMember) (highest : ℤ) :
    List SwarmMember → Option SwarmMember
  | [] => best
  | m :: ms =>
      if highest < m.contribution then pickGo (some m) m.contribution ms
      else pickGo best highest ms

def pickLeader (ms : List SwarmMember) : Option SwarmMember :=
  pickGo none (-1) ms

/-- `Swarm.leave` (SwarmIntelligence.ts:212-236), with `electNewLeader`
inlined. -/
def leave (s : SwarmState) (d : String) : SwarmState × List Event :=
  match findMember s.members d with
  | none => (s, [])
  | some _ =>
    let ms1 := delMember s.members d
    let elect := s.leaderId = some d ∧ 0 < ms1.length
    let pick := if elect then pickLeader ms1 else none
    let ms2 := match pick with
      | some b => setRole ms1 b.deviceId Role.leader
      | none => ms1
    let leader1 := match pick with
      | some b => some b.deviceId
      | none => s.leaderId
    let evElect := match pick with
      | some b => [Event.leaderElected b.deviceId]
      | none => []
    let evUnder :=
      if ms1.length < s.minDevices ∧ s.state = SwarmLifecycle.executing
      then [Event.swarmUnderstaffed ms1.length s.minDevices] else []
    ({ s with members := ms2, leaderId := leader1 },
     evElect ++ evUnder ++ [Event.memberLeft d, Event.metricsUpdated])

/-- First-match update performed by `Swarm.updateMemberLocation`. -/
def updMember : List SwarmMember → String → Location → Option Velocity → ℤ →
    List SwarmMember
  | [], _, _, _, _ => []
  | m :: ms, d, loc, vel?, now =>
      if m.deviceId = d then
        { m with location := loc, velocity := vel?.getD m.velocity
                 lastUpdate := now } :: ms
      else m :: updMember ms d loc vel? now

/-- `Swarm.updateMemberLocation` (SwarmIntelligence.ts:238-249). -/
def updateMemberLocation (s : SwarmState) (d : String) (loc : Location)
    (vel? : Option Velocity) (now : ℤ) : SwarmState × List Event :=
  match findMember s.members d with
  | none => (s, [])
  | some _ =>
    ({ s with members := updMember s.members d loc vel? now },
     [Event.memberUpdated d])

-- ==================== Communication ====================

/-- `Swarm.broadcast` (SwarmIntelligence.ts:820-834): append to the log
and increment the metrics counter. -/
def broadcastStep (s : SwarmState) : SwarmState × List Event :=
  ({ s with messages := s.messages + 1
            messagesExchanged := s.messagesExchanged + 1 },
   [Event.messageBroadcast])

-- ==================== Coordinated actions ====================

/-- `Swarm.coordinatedAction` (SwarmIntelligence.ts:253-320).  The
action object is stored, broadcast, then mutated to `executing` with its
start time; the optional timeout only arms a timer whose later firing is
`actionTimeoutFire`. -/
def coordinatedAction (s : SwarmState) (fresh : String) (typ : String)
    (target : Location) (formation? : Option FormationType)
    (timing? : Option ActionTiming) (participants? : Option (List String))
    (now : ℤ) : Except String (CoordinatedAction × SwarmState × List Event) :=
  if ¬ s.state = SwarmLifecycle.ready ∧ ¬ s.state = SwarmLifecycle.executing then
    Except.error "Swarm not ready for coordinated actions"
  else
    let s1 := { s with state := SwarmLifecycle.executing }
    let participants := participants?.getD (memberIds s.members)
    let a0 : CoordinatedAction :=
      { actionId := fresh, type := typ, target := target
        formation := formation?.getD FormationType.circle
        participants := participants
        timing := timing?.getD ActionTiming.synchronized
        status := ActionStatus.pending, startTime := none, completedBy := [] }
    let s2 := { s1 with actions := setAction s1.actions fresh a0 }
    let r3 := broadcastStep s2
    let a1 := { a0 with status := ActionStatus.executing, startTime := some now }
    let s4 := { r3.1 with actions := setAction r3.1.actions fresh a1 }
    Except.ok (a1, s4, r3.2 ++ [Event.actionStarted fresh])

/-- `Swarm.reportActionComplete` (SwarmIntelligence.ts:322-342). -/
def reportActionComplete (s : SwarmState) (d : String) (aid : String)
    (success : Bool) : SwarmState × List Event :=
  match findAction s.actions aid with
  | none => (s, [])
  | some a =>
    let firstSuccess := success = true ∧ ¬ d ∈ a.completedBy
    let a1 := if firstSuccess then { a with completedBy := a.completedBy ++ [d] }
              else a
    let ms1 := if firstSuccess then bumpContribution s.members d 10 else s.members
    let quorum := a1.completedBy.length = a1.participants.length
    let a2 := if quorum then { a1 with status := ActionStatus.completed } else a1
    let evs := if quorum then [Event.actionCompleted aid] else []
    ({ s with actions := setAction s.actions aid a2, members := ms1 },
     evs ++ [Event.metricsUpdated])

/-- Firing of the timeout timer armed by `coordinatedAction`
(SwarmIntelligence.ts:309-317): only a still-`executing` action is
failed. -/
def actionTimeoutFire (s : SwarmState) (aid : String) : SwarmState × List Event :=
  match findAction s.actions aid with
  | none => (s, [])
  | some a =>
    if a.status = ActionStatus.executing then
      ({ s with actions := setAction s.actions aid { a with status := ActionStatus.failed } },
       [Event.actionTimeout aid])
    else (s, [])

-- ==================== Pheromone system ====================

/-- `Swarm.depositPheromone` (SwarmIntelligence.ts:745-774). -/
def depositPheromone (s : SwarmState) (fresh : String) (d : String)
    (path : List Location) (ty : PheromoneType) (strength : ℚ) (now : ℤ) :
    PheromoneTrail × SwarmState × List Event :=
  let trail : PheromoneTrail :=
    { id := fresh, path := path, strength := strength, type := ty
      createdBy := d, createdAt := now, expiresAt := now + 60000 }
  let ph1 := setTrail s.pheromones trail
  let ms1 := match findMember s.members d with
    | some _ => bumpContribution s.members d 5
    | none => s.members
  (trail, { s with pheromones := ph1, members := ms1 },
   [Event.pheromoneDeposited fresh])

/-- `this.config.parameters?.pheromoneDecay || 0.1`: a configured rate of
`0` is falsy and falls back to the default. -/
def effRate (s : SwarmState) : ℚ :=
  match s.pheromoneDecay with
  | some r => if r = 0 then 1/10 else r
  | none => 1/10

/-- One iteration step of the decay sweep. -/
def decayStep (rate : ℚ) (now : ℤ) (acc : List PheromoneTrail × List Event)
    (t : PheromoneTrail) : List PheromoneTrail × List Event :=
  if t.expiresAt < now then (acc.1, acc.2 ++ [Event.pheromoneExpired t.id])
  else
    let t1 := { t with strength := t.strength * (1 - rate) }
    if t1.strength < 1/100 then (acc.1, acc.2 ++ [Event.pheromoneFaded t.id])
    else (acc.1 ++ [t1], acc.2)

/-- One firing of the 5-second timer installed by
`Swarm.startPheromoneDecay` (SwarmIntelligence.ts:792-816). -/
def decayTick (s : SwarmState) (now : ℤ) : SwarmState × List Event :=
  let r := s.pheromones.foldl (decayStep (effRate s) now) ([], [])
  ({ s with pheromones := r.1 }, r.2)

-- ==================== Lifecycle ====================

/-- `Swarm.dissolve` (SwarmIntelligence.ts:900-910). -/
def dissolve (s : SwarmState) : SwarmState × List Event :=
  let s1 := { s with state := SwarmLifecycle.dispersing }
  let r2 := broadcastStep s1
  ({ r2.1 with state := SwarmLifecycle.dissolved },
   r2.2 ++ [Event.swarmDissolved])

-- ==================== SwarmIntelligence module ====================

/-- State of a `SwarmIntelligence` module instance. -/
structure SwarmIntelligenceState where
  deviceId : String
  maxSwarms : ℕ
  swarms : List (String × SwarmState)
deriving DecidableEq

/-- Constructor: `this.maxSwarms = config.maxSwarms || 5`. -/
def mkSwarmIntelligence (deviceId : String) (maxSwarms? : Option ℕ) :
    SwarmIntelligenceState :=
  { deviceId := deviceId
    maxSwarms := match maxSwarms? with
      | some m => if m = 0 then 5 else m
      | none => 5
    swarms := [] }

/-- Initial state of a `Swarm` built from a `SwarmConfig`. -/
def initSwarm (leaderId? : Option String) (minDevices : ℕ)
    (maxDevices : Option ℕ) (pheromoneDecay : Option ℚ) : SwarmState :=
  { members := [], pheromones := [], actions := []
    state := SwarmLifecycle.forming, leaderId := leaderId?
    messages := 0, messagesExchanged := 0
    minDevices := minDevices, maxDevices := maxDevices
    pheromoneDecay := pheromoneDecay }

def findSwarm : List (String × SwarmState) → String → Option SwarmState
  | [], _ => none
  | p :: ps, i => if p.1 = i then some p.2 else findSwarm ps i

def setSwarm : List (String × SwarmState) → String → SwarmState →
    List (String × SwarmState)
  | [], i, s => [(i, s)]
  | p :: ps, i, s => if p.1 = i then (i, s) :: ps else p :: setSwarm ps i s

def delSwarm (l : List (String × SwarmState)) (i : String) :
    List (String × SwarmState) :=
  l.filter (fun p => ¬ p.1 = i)

/-- `SwarmIntelligence.formSwarm` (SwarmIntelligence.ts:1070-1105): the
new swarm's `leaderId` is pre-assigned to the forming device. -/
def formSwarm (M : SwarmIntelligenceState) (fresh : String) (minDevices : ℕ)
    (maxDevices : Option ℕ) (pheromoneDecay : Option ℚ) :
    Except String (String × SwarmIntelligenceState) :=
  if M.maxSwarms ≤ M.swarms.length then
    Except.error "Maximum swarm limit reached"
  else
    let s0 := initSwarm (some M.deviceId) minDevices maxDevices pheromoneDecay
    Except.ok (fresh, { M with swarms := setSwarm M.swarms fresh s0 })

/-- `SwarmIntelligence.dissolveSwarm` (SwarmIntelligence.ts:1133-1139):
dissolve the swarm if present, then remove it from the map. -/
def dissolveSwarm (M : SwarmIntelligenceState) (sid : String) :
    SwarmIntelligenceState × List Event :=
  match findSwarm M.swarms sid with
  | none => (M, [])
  | some s =>
    ({ M with swarms := delSwarm M.swarms sid }, (dissolve s).2)

-- ==================== Operation traces ====================

/-- One serialized mutating operation against a swarm. -/
inductive SwarmOp
  | opJoin (d : String) (loc : Location) (role? : Option Role) (now : ℤ)
  | opLeave (d : String)
  | opUpdate (d : String) (loc : Location) (vel? : Option Velocity) (now : ℤ)
  | opReport (d aid : String) (success : Bool)
  | opDeposit (fresh d : String) (path : List Location) (ty : PheromoneType)
      (strength : ℚ) (now : ℤ)
  | opStartAction (fresh typ : String) (target : Location)
      (formation? : Option FormationType) (timing? : Option ActionTiming)
      (participants? : Option (List String)) (now : ℤ)
  | opTimeoutFire (aid : String)
  | opDecay (now : ℤ)
  | opDissolve
deriving DecidableEq

def applyOp (s : SwarmState) : SwarmOp → SwarmState
  | SwarmOp.opJoin d loc role? now => (join s d loc role? now).2.1
  | SwarmOp.opLeave d => (leave s d).1
  | SwarmOp.opUpdate d loc vel? now => (updateMemberLocation s d loc vel? now).1
  | SwarmOp.opReport d aid b => (reportActionComplete s d aid b).1
  | SwarmOp.opDeposit fresh d path ty q now =>
      (depositPheromone s fresh d path ty q now).2.1
  | SwarmOp.opStartAction fresh typ target f? t? p? now =>
      match coordinatedAction s fresh typ target f? t? p? now with
      | Except.ok r => r.2.1
      | Except.error _ => s
  | SwarmOp.opTimeoutFire aid => (actionTimeoutFire s aid).1
  | SwarmOp.opDecay now => (decayTick s now).1
  | SwarmOp.opDissolve => (dissolve s).1

def applyOps (s : SwarmState) (ops : List SwarmOp) : SwarmState :=
  ops.foldl applyOp s

-- ==================== Helper lemmas on the map operations ====================

theorem memberIds_setRole (ms : List SwarmMember) (d : String) (r : Role) :
    memberIds (setRole ms d r) = memberIds ms := by
  induction ms with
  | nil => rfl
  | cons m ms ih =>
      unfold setRole
      split_ifs with h
      · simp [memberIds, h]
      · simp only [memberIds, List.map_cons] at ih ⊢
        rw [ih]

theorem memberIds_bump (ms : List SwarmMember) (d : String) (k : ℤ) :
    memberIds (bumpContribution ms d k) = memberIds ms := by
  induction ms with
  | nil => rfl
  | cons m ms ih =>
      unfold bumpContribution
      split_ifs with h
      · simp [memberIds]
      · simp only [memberIds, List.map_cons] at ih ⊢
        rw [ih]

theorem memberIds_upd (ms : List SwarmMember) (d : String) (loc : Location)
    (vel? : Option Velocity) (now : ℤ) :
    memberIds (updMember ms d loc vel? now) = memberIds ms := by
  induction ms with
  | nil => rfl
  | cons m ms ih =>
      unfold updMember
      split_ifs with h
      · simp [memberIds]
      · simp only [memberIds, List.map_cons] at ih ⊢
        rw [ih]

theorem mem_memberIds_setMember (ms : List SwarmMember) (m : SwarmMember)
    (x : String) (hx : x ∈ memberIds ms) : x ∈ memberIds (setMember ms m) := by
  induction ms with
  | nil => cases hx
  | cons a ms ih =>
      have hx' : x = a.deviceId ∨ x ∈ memberIds ms := List.mem_cons.mp hx
      unfold setMember
      split_ifs with h
      · refine List.mem_cons.mpr ?_
        rcases hx' with h1 | h1
        · exact Or.inl (h1.trans h)
        · exact Or.inr h1
      · refine List.mem_cons.mpr ?_
        rcases hx' with h1 | h1
        · exact Or.inl h1
        · exact Or.inr (ih h1)

theorem self_mem_memberIds_setMember (ms : List SwarmMember) (m : SwarmMember) :
    m.deviceId ∈ memberIds (setMember ms m) := by
  induction ms with
  | nil => simp [setMember, memberIds]
  | cons a ms ih =>
      unfold setMember
      split_ifs with h
      · simp [memberIds]
      · simp only [memberIds, List.map_cons, List.mem_cons]
        exact Or.inr (by simpa [memberIds] using ih)

theorem mem_memberIds_delMember (ms : List SwarmMember) (d x : String)
    (hx : x ∈ memberIds ms) (hne : ¬ x = d) :
    x ∈ memberIds (delMember ms d) := by
  simp only [memberIds, delMember, List.mem_map] at hx ⊢
  rcases hx with ⟨m, hm, hmx⟩
  exact ⟨m, List.mem_filter.mpr ⟨hm, by simp [hmx, hne]⟩, hmx⟩

theorem length_setMember_le (ms : List SwarmMember) (m : SwarmMember) :
    (setMember ms m).length ≤ ms.length + 1 := by
  induction ms with
  | nil => simp [setMember]
  | cons a ms ih =>
      unfold setMember
      split_ifs with h
      · simp
      · simpa using Nat.succ_le_succ ih

theorem length_setRole (ms : List SwarmMember) (d : String) (r : Role) :
    (setRole ms d r).length = ms.length := by
  induction ms with
  | nil => rfl
  | cons a ms ih =>
      unfold setRole
      split_ifs with h <;> simp [ih]

theorem length_bump (ms : List SwarmMember) (d : String) (k : ℤ) :
    (bumpContribution ms d k).length = ms.length := by
  induction ms with
  | nil => rfl
  | cons a ms ih =>
      unfold bumpContribution
      split_ifs with h <;> simp [ih]

theorem length_upd (ms : List SwarmMember) (d : String) (loc : Location)
    (vel? : Option Velocity) (now : ℤ) :
    (updMember ms d loc vel? now).length = ms.length := by
  induction ms with
  | nil => rfl
  | cons a ms ih =>
      unfold updMember
      split_ifs with h <;> simp [ih]

theorem length_delMember_le (ms : List SwarmMember) (d : String) :
    (delMember ms d).length ≤ ms.length :=
  List.length_filter_le _ ms

/-- All contributions on the roster are nonnegative; true of every
reachable roster since members join with contribution `0` and the code
only adds positive amounts. -/
def contribsOK (ms : List SwarmMember) : Prop :=
  ∀ m ∈ ms, 0 ≤ m.contribution

instance (ms : List SwarmMember) : Decidable (contribsOK ms) :=
  List.decidableBAll _ ms

theorem contribsOK_setRole (ms : List SwarmMember) (d : String) (r : Role)
    (h : contribsOK ms) : contribsOK (setRole ms d r) := by
  induction ms with
  | nil => exact h
  | cons a ms ih =>
      unfold setRole
      have ha := h a (List.mem_cons_self _ _)
      have ht : contribsOK ms := fun m hm => h m (List.mem_cons_of_mem _ hm)
      split_ifs with hd
      · intro m hm
        rcases List.mem_cons.mp hm with hm | hm
        · subst hm; exact ha
        · exact ht m hm
      · intro m hm
        rcases List.mem_cons.mp hm with hm | hm
        · subst hm; exact ha
        · exact ih ht m hm

theorem contribsOK_bump (ms : List SwarmMember) (d : String) (k : ℤ)
    (hk : 0 ≤ k) (h : contribsOK ms) : contribsOK (bumpContribution ms d k) := by
  induction ms with
  | nil => exact h
  | cons a ms ih =>
      unfold bumpContribution
      have ha := h a (List.mem_cons_self _ _)
      have ht : contribsOK ms := fun m hm => h m (List.mem_cons_of_mem _ hm)
      split_ifs with hd
      · intro m hm
        rcases List.mem_cons.mp hm with hm | hm
        · subst hm; exact add_nonneg ha hk
        · exact ht m hm
      · intro m hm
        rcases List.mem_cons.mp hm with hm | hm
        · subst hm; exact ha
        · exact ih ht m hm

theorem contribsOK_upd (ms : List SwarmMember) (d : String) (loc : Location)
    (vel? : Option Velocity) (now : ℤ) (h : contribsOK ms) :
    contribsOK (updMember ms d loc vel? now) := by
  induction ms with
  | nil => exact h
  | cons a ms ih =>
      unfold updMember
      have ha := h a (List.mem_cons_self _ _)
      have ht : contribsOK ms := fun m hm => h m (List.mem_cons_of_mem _ hm)
      split_ifs with hd
      · intro m hm
        rcases List.mem_cons.mp hm with hm | hm
        · subst hm; exact ha
        · exact ht m hm
      · intro m hm
        rcases List.mem_cons.mp hm with hm | hm
        · subst hm; exact ha
        · exact ih ht m hm

theorem contribsOK_setMember (ms : List SwarmMember) (m : SwarmMember)
    (hm : 0 ≤ m.contribution) (h : contribsOK ms) :
    contribsOK (setMember ms m) := by
  induction ms with
  | nil =>
      intro x hx
      rcases List.mem_cons.mp hx with hx | hx
      · subst hx; exact hm
      · cases hx
  | cons a ms ih =>
      unfold setMember
      have ha := h a (List.mem_cons_self _ _)
      have ht : contribsOK ms := fun x hx => h x (List.mem_cons_of_mem _ hx)
      split_ifs with hd
      · intro x hx
        rcases List.mem_cons.mp hx with hx | hx
        · subst hx; exact hm
        · exact ht x hx
      · intro x hx
        rcases List.mem_cons.mp hx with hx | hx
        · subst hx; exact ha
        · exact ih ht x hx

theorem contribsOK_delMember (ms : List SwarmMember) (d : String)
    (h : contribsOK ms) : contribsOK (delMember ms d) := fun m hm =>
  h m (List.mem_of_mem_filter hm)

theorem findAction_some_actionId (l : List CoordinatedAction) (i : String)
    (a : CoordinatedAction) (h : findAction l i = some a) : a.actionId = i := by
  induction l with
  | nil => cases h
  | cons x xs ih =>
      unfold findAction at h
      split_ifs at h with hx
      · cases h; exact hx
      · exact ih h

theorem findAction_setAction (l : List CoordinatedAction) (i : String)
    (b : CoordinatedAction) (hb : b.actionId = i) :
    findAction (setAction l i b) i = some b := by
  induction l with
  | nil => simp [setAction, findAction, hb]
  | cons x xs ih =>
      unfold setAction
      split_ifs with hx
      · simp [findAction, hb]
      · simp [findAction, hx, ih]

theorem findMember_some_deviceId (ms : List SwarmMember) (d : String)
    (m : SwarmMember) (h : findMember ms d = some m) : m.deviceId = d := by
  induction ms with
  | nil => cases h
  | cons x xs ih =>
      unfold findMember at h
      split_ifs at h with hx
      · cases h; exact hx
      · exact ih h

theorem contributionOf_bump_self (ms : List SwarmMember) (d : String) (k : ℤ) :
    contributionOf (bumpContribution ms d k) d =
      (contributionOf ms d).map (fun c => c + k) := by
  induction ms with
  | nil => rfl
  | cons m ms ih =>
      unfold bumpContribution
      split_ifs with h
      · simp [contributionOf, findMember, h]
      · simp only [contributionOf, findMember, h, if_neg] at ih ⊢
        exact ih

theorem bump_not_found (ms : List SwarmMember) (d : String) (k : ℤ)
    (h : findMember ms d = none) : bumpContribution ms d k = ms := by
  induction ms with
  | nil => rfl
  | cons m ms ih =>
      unfold findMember at h
      unfold bumpContribution
      by_cases hd : m.deviceId = d
      · rw [if_pos hd] at h; cases h
      · rw [if_neg hd] at h
        rw [if_neg hd, ih h]

theorem findSwarm_delSwarm_self (l : List (String × SwarmState)) (i : String) :
    findSwarm (delSwarm l i) i = none := by
  induction l with
  | nil => rfl
  | cons p ps ih =>
      unfold delSwarm at ih ⊢
      by_cases hp : p.1 = i
      · simpa [List.filter, hp] using ih
      · simpa [List.filter, hp, findSwarm] using ih

/-- The election loop started from candidate `b` returns the first
member of `ms` holding the overall maximum contribution, or `b` itself
when nothing beats it. -/
theorem pickGo_char (ms : List SwarmMember) (b : SwarmMember) :
    ∃ c, pickGo (some b) b.contribution ms = some c ∧
      ((c = b ∧ ∀ m ∈ ms, m.contribution ≤ b.contribution) ∨
       (∃ p q, ms = p ++ c :: q ∧ b.contribution < c.contribution ∧
         (∀ m ∈ p, m.contribution < c.contribution) ∧
         (∀ m ∈ q, m.contribution ≤ c.contribution))) := by
  induction ms generalizing b with
  | nil => exact ⟨b, rfl, Or.inl ⟨rfl, by simp⟩⟩
  | cons m ms ih =>
      unfold pickGo
      split_ifs with h
      · obtain ⟨c, hc, hcase⟩ := ih m
        refine ⟨c, hc, Or.inr ?_⟩
        rcases hcase with ⟨rfl, hall⟩ | ⟨p, q, hms, hlt, hp, hq⟩
        · exact ⟨[], ms, by simp, h, by simp, hall⟩
        · refine ⟨m :: p, q, by simp [hms], lt_trans h hlt, ?_, hq⟩
          intro x hx
          rcases List.mem_cons.mp hx with hx | hx
          · subst hx; exact hlt
          · exact hp x hx
      · obtain ⟨c, hc, hcase⟩ := ih b
        refine ⟨c, hc, ?_⟩
        rcases hcase with ⟨rfl, hall⟩ | ⟨p, q, hms, hlt, hp, hq⟩
        · refine Or.inl ⟨rfl, ?_⟩
          intro x hx
          rcases List.mem_cons.mp hx with hx | hx
          · subst hx; exact le_of_not_lt h
          · exact hall x hx
        · refine Or.inr ⟨m :: p, q, by simp [hms], hlt, ?_, hq⟩
          intro x hx
          rcases List.mem_cons.mp hx with hx | hx
          · subst hx; exact lt_of_le_of_lt (le_of_not_lt h) hlt
          · exact hp x hx

/-- `electNewLeader` on a nonempty roster of nonnegative contributions
returns the first member holding the maximal contribution: the member
with the highest contribution, ties broken by earliest roster (join)
position. -/
theorem pickLeader_char (m : SwarmMember) (rest : List SwarmMember)
    (hc : contribsOK (m :: rest)) :
    ∃ c p q, m :: rest = p ++ c :: q ∧ pickLeader (m :: rest) = some c ∧
      (∀ x ∈ p, x.contribution < c.contribution) ∧
      (∀ x ∈ q, x.contribution ≤ c.contribution) := by
  have h0 : (-1 : ℤ) < m.contribution :=
    lt_of_lt_of_le (by norm_num) (hc m (List.mem_cons_self _ _))
  have hpl : pickLeader (m :: rest) = pickGo (some m) m.contribution rest := by
    simp only [pickLeader, pickGo, if_pos h0]
  obtain ⟨c, hcgo, hcase⟩ := pickGo_char rest m
  rcases hcase with ⟨rfl, hall⟩ | ⟨p, q, hms, hlt, hp, hq⟩
  · exact ⟨c, [], rest, by simp, by rw [hpl, hcgo], by simp, hall⟩
  · refine ⟨c, m :: p, q, by simp [hms], by rw [hpl, hcgo], ?_, hq⟩
    intro x hx
    rcases List.mem_cons.mp hx with hx | hx
    · subst hx; exact hlt
    · exact hp x hx

theorem pickLeader_mem (ms : List SwarmMember) (c : SwarmMember)
    (h : pickLeader ms = some c) : c ∈ ms := by
  have main : ∀ (l : List SwarmMember) (b : Option SwarmMember) (hi : ℤ),
      pickGo b hi l = some c → (b = some c) ∨ c ∈ l := by
    intro l
    induction l with
    | nil => intro b hi hb; exact Or.inl hb
    | cons m ms ih =>
        intro b hi hb
        unfold pickGo at hb
        split_ifs at hb with hlt
        · rcases ih (some m) m.contribution hb with h1 | h1
          · exact Or.inr (List.mem_cons.mpr (Or.inl (Option.some.inj h1).symm))
          · exact Or.inr (List.mem_cons_of_mem _ h1)
        · rcases ih b hi hb with h1 | h1
          · exact Or.inl h1
          · exact Or.inr (List.mem_cons_of_mem _ h1)
  rcases main ms none (-1) h with h1 | h1
  · cases h1
  · exact h1

-- ==================== Leader invariant ====================

/-- The leader reference, when set, names a current member. -/
def leaderOK (s : SwarmState) : Prop :=
  ∀ l, s.leaderId = some l → l ∈ memberIds s.members

/-- Side condition on one step of a trace: no `leave` may empty a
nonempty roster (removing the last remaining member leaves a stale
leader reference behind). -/
def stepOK (s : SwarmState) : SwarmOp → Prop
  | SwarmOp.opLeave d => delMember s.members d = [] → s.members = []
  | _ => True

def goodTrace : SwarmState → List SwarmOp → Prop
  | _, [] => True
  | s, op :: ops => stepOK s op ∧ goodTrace (applyOp s op) ops

theorem applyOp_leader_inv (s : SwarmState) (op : SwarmOp)
    (hL : leaderOK s) (hC : contribsOK s.members) (hS : stepOK s op) :
    leaderOK (applyOp s op) ∧ contribsOK (applyOp s op).members := by
  cases op with
  | opJoin d loc role? now =>
      by_cases hdis : s.state = SwarmLifecycle.dissolved
      · simpa [applyOp, join, hdis] using And.intro hL hC
      by_cases hcap : capacityFull s
      · simpa [applyOp, join, hdis, hcap] using And.intro hL hC
      simp only [applyOp, join, if_neg hdis, if_neg hcap]
      split_ifs with h1 h2 h2 <;>
        refine ⟨?_, ?_⟩ <;>
        first
        | -- leaderOK, becomesLeader case: new leader is the inserted device
          (intro l hl
           have hld : l = d := (Option.some.inj hl).symm
           subst hld
           rw [memberIds_setRole]
           exact self_mem_memberIds_setMember s.members _)
        | -- leaderOK, leader unchanged case: old leader survives insertion
          (intro l hl
           exact mem_memberIds_setMember s.members _ l (hL l hl))
        | -- contribsOK: inserted member starts at contribution 0
          (first
            | exact contribsOK_setRole _ _ _
                (contribsOK_setMember s.members _ (le_refl 0) hC)
            | exact contribsOK_setMember s.members _ (le_refl 0) hC)
  | opLeave d =>
      cases hf : findMember s.members d with
      | none => simpa [applyOp, leave, hf] using And.intro hL hC
      | some m =>
          have hCdel : contribsOK (delMember s.members d) :=
            contribsOK_delMember s.members d hC
          by_cases helect : s.leaderId = some d ∧ 0 < (delMember s.members d).length
          · cases hdel : delMember s.members d with
            | nil => rw [hdel] at helect; simp at helect
            | cons x rest =>
                have hCx : contribsOK (x :: rest) := by rw [← hdel]; exact hCdel
                obtain ⟨c, p, q, hdecomp, hpick, hp, hq⟩ := pickLeader_char x rest hCx
                have hcmem : c ∈ delMember s.members d := by
                  rw [hdel, hdecomp]; simp
                have hpick' : pickLeader (delMember s.members d) = some c := by
                  rw [hdel]; exact hpick
                simp only [applyOp, leave, hf, if_pos helect, hpick']
                constructor
                · intro l hl
                  have hlc : l = c.deviceId := (Option.some.inj hl).symm
                  subst hlc
                  rw [memberIds_setRole]
                  exact List.mem_map.mpr ⟨c, hcmem, rfl⟩
                · exact contribsOK_setRole _ _ _ hCdel
          · simp only [applyOp, leave, hf, if_neg helect]
            constructor
            · intro l hl
              have hls : s.leaderId = some l := hl
              by_cases hld : l = d
              · exfalso
                apply helect
                refine ⟨by rw [← hld]; exact hls, ?_⟩
                cases hdel : delMember s.members d with
                | nil =>
                    have hnil := hS hdel
                    rw [hnil] at hf
                    cases hf
                | cons x rest => simp [hdel]
              · exact mem_memberIds_delMember s.members d l (hL l hls) hld
            · exact hCdel
  | opUpdate d loc vel? now =>
      cases hf : findMember s.members d with
      | none => simpa [applyOp, updateMemberLocation, hf] using And.intro hL hC
      | some m =>
          simp only [applyOp, updateMemberLocation, hf]
          refine ⟨?_, contribsOK_upd _ _ _ _ _ hC⟩
          intro l hl
          rw [memberIds_upd]
          exact hL l hl
  | opReport d aid success =>
      cases hf : findAction s.actions aid with
      | none => simpa [applyOp, reportActionComplete, hf] using And.intro hL hC
      | some a =>
          simp only [applyOp, reportActionComplete, hf]
          split_ifs with h1 <;>
          · constructor
            · intro l hl
              first
                | (rw [memberIds_bump]; exact hL l hl)
                | exact hL l hl
            · first
                | exact contribsOK_bump _ _ _ (by norm_num) hC
                | exact hC
  | opDeposit fresh d path ty strength now =>
      simp only [applyOp, depositPheromone]
      cases hf : findMember s.members d <;>
      · constructor
        · intro l hl
          first
            | (rw [memberIds_bump]; exact hL l hl)
            | exact hL l hl
        · first
            | exact contribsOK_bump _ _ _ (by norm_num) hC
            | exact hC
  | opStartAction fresh typ target f? t? p? now =>
      by_cases hst : ¬ s.state = SwarmLifecycle.ready ∧
          ¬ s.state = SwarmLifecycle.executing
      · simpa [applyOp, coordinatedAction, hst] using And.intro hL hC
      · simpa [applyOp, coordinatedAction, hst, broadcastStep] using
          And.intro hL hC
  | opTimeoutFire aid =>
      cases hf : findAction s.actions aid with
      | none => simpa [applyOp, actionTimeoutFire, hf] using And.intro hL hC
      | some a =>
          by_cases hex : a.status = ActionStatus.executing
          · simpa [applyOp, actionTimeoutFire, hf, hex] using And.intro hL hC
          · simpa [applyOp, actionTimeoutFire, hf, hex] using And.intro hL hC
  | opDecay now =>
      simpa [applyOp, decayTick] using And.intro hL hC
  | opDissolve =>
      simpa [applyOp, dissolve, broadcastStep] using And.intro hL hC

theorem applyOps_leader_inv (ops : List SwarmOp) (s : SwarmState)
    (hL : leaderOK s) (hC : contribsOK s.members) (hT : goodTrace s ops) :
    leaderOK (applyOps s ops) ∧ contribsOK (applyOps s ops).members := by
  induction ops generalizing s with
  | nil => exact ⟨hL, hC⟩
  | cons op ops ih =>
      obtain ⟨h1, h2⟩ := hT
      obtain ⟨hL1, hC1⟩ := applyOp_leader_inv s op hL hC h1
      exact ih (applyOp s op) hL1 hC1 h2

-- ==================== Capacity invariant ====================

/-- No operation ever changes the configured maximum. -/
theorem applyOp_maxDevices (s : SwarmState) (op : SwarmOp) :
    (applyOp s op).maxDevices = s.maxDevices := by
  cases op with
  | opJoin d loc role? now =>
      by_cases hdis : s.state = SwarmLifecycle.dissolved
      · simp [applyOp, join, hdis]
      by_cases hcap : capacityFull s
      · simp [applyOp, join, hdis, hcap]
      · simp [applyOp, join, hdis, hcap]
  | opLeave d =>
      cases hf : findMember s.members d with
      | none => simp [applyOp, leave, hf]
      | some m => simp [applyOp, leave, hf]
  | opUpdate d loc vel? now =>
      cases hf : findMember s.members d <;> simp [applyOp, updateMemberLocation, hf]
  | opReport d aid success =>
      cases hf : findAction s.actions aid with
      | none => simp [applyOp, reportActionComplete, hf]
      | some a => simp [applyOp, reportActionComplete, hf]
  | opDeposit fresh d path ty strength now =>
      cases hf : findMember s.members d <;> simp [applyOp, depositPheromone, hf]
  | opStartAction fresh typ target f? t? p? now =>
      by_cases hst : ¬ s.state = SwarmLifecycle.ready ∧
          ¬ s.state = SwarmLifecycle.executing
      · simp [applyOp, coordinatedAction, hst]
      · simp [applyOp, coordinatedAction, hst, broadcastStep]
  | opTimeoutFire aid =>
      cases hf : findAction s.actions aid with
      | none => simp [applyOp, actionTimeoutFire, hf]
      | some a =>
          by_cases hex : a.status = ActionStatus.executing <;>
            simp [applyOp, actionTimeoutFire, hf, hex]
  | opDecay now => simp [applyOp, decayTick]
  | opDissolve => simp [applyOp, dissolve, broadcastStep]

/-- A single operation keeps the roster within a configured nonzero
maximum. -/
theorem applyOp_length_le (s : SwarmState) (op : SwarmOp) (m : ℕ)
    (hm : s.maxDevices = some m) (h0 : 0 < m)
    (hlen : s.members.length ≤ m) :
    (applyOp s op).members.length ≤ m := by
  cases op with
  | opJoin d loc role? now =>
      by_cases hdis : s.state = SwarmLifecycle.dissolved
      · simpa [applyOp, join, hdis] using hlen
      by_cases hcap : capacityFull s
      · simpa [applyOp, join, hdis, hcap] using hlen
      · have hlt : s.members.length < m := by
          by_contra hge
          apply hcap
          simp only [capacityFull, hm]
          exact ⟨Nat.pos_iff_ne_zero.mp h0, le_of_not_lt hge⟩
        simp only [applyOp, join, if_neg hdis, if_neg hcap]
        split_ifs <;>
          first
            | (rw [length_setRole]
               exact le_trans (length_setMember_le s.members _) hlt)
            | exact le_trans (length_setMember_le s.members _) hlt
  | opLeave d =>
      cases hf : findMember s.members d with
      | none => simpa [applyOp, leave, hf] using hlen
      | some mm =>
          simp only [applyOp, leave, hf]
          split_ifs <;> cases hpk : pickLeader (delMember s.members d) <;>
            first
              | (rw [length_setRole]
                 exact le_trans (length_delMember_le s.members d) hlen)
              | exact le_trans (length_delMember_le s.members d) hlen
  | opUpdate d loc vel? now =>
      cases hf : findMember s.members d with
      | none => simpa [applyOp, updateMemberLocation, hf] using hlen
      | some mm =>
          simpa [applyOp, updateMemberLocation, hf, length_upd] using hlen
  | opReport d aid success =>
      cases hf : findAction s.actions aid with
      | none => simpa [applyOp, reportActionComplete, hf] using hlen
      | some a =>
          simp only [applyOp, reportActionComplete, hf]
          split_ifs <;>
            first
              | (rw [length_bump]; exact hlen)
              | exact hlen
  | opDeposit fresh d path ty strength now =>
      cases hf : findMember s.members d <;>
        simpa [applyOp, depositPheromone, hf, length_bump] using hlen
  | opStartAction fresh typ target f? t? p? now =>
      by_cases hst : ¬ s.state = SwarmLifecycle.ready ∧
          ¬ s.state = SwarmLifecycle.executing
      · simpa [applyOp, coordinatedAction, hst] using hlen
      · simpa [applyOp, coordinatedAction, hst, broadcastStep] using hlen
  | opTimeoutFire aid =>
      cases hf : findAction s.actions aid with
      | none => simpa [applyOp, actionTimeoutFire, hf] using hlen
      | some a =>
          by_cases hex : a.status = ActionStatus.executing <;>
            simpa [applyOp, actionTimeoutFire, hf, hex] using hlen
  | opDecay now => simpa [applyOp, decayTick] using hlen
  | opDissolve => simpa [applyOp, dissolve, broadcastStep] using hlen

theorem applyOps_length_le (ops : List SwarmOp) (s : SwarmState) (m : ℕ)
    (hm : s.maxDevices = some m) (h0 : 0 < m)
    (hlen : s.members.length ≤ m) :
    (applyOps s ops).members.length ≤ m := by
  induction ops generalizing s with
  | nil => exact hlen
  | cons op ops ih =>
      exact ih (applyOp s op)
        ((applyOp_maxDevices s op).trans hm)
        (applyOp_length_le s op m hm h0 hlen)

-- ==================== Decay-sweep characterization ====================

/-- The fate of one trail in a decay sweep: `none` when it is removed
(expired or faded), `some` of the decayed trail otherwise. -/
def decayFn (rate : ℚ) (now : ℤ) (t : PheromoneTrail) : Option PheromoneTrail :=
  if t.expiresAt < now then none
  else
    let t1 := { t with strength := t.strength * (1 - rate) }
    if t1.strength < 1/100 then none else some t1

theorem decay_foldl_kept (rate : ℚ) (now : ℤ) (l : List PheromoneTrail)
    (acc : List PheromoneTrail × List Event) :
    (l.foldl (decayStep rate now) acc).1 = acc.1 ++ l.filterMap (decayFn rate now) := by
  induction l generalizing acc with
  | nil => simp
  | cons t ts ih =>
      rw [List.foldl_cons]
      by_cases h1 : t.expiresAt < now
      · have hs : decayStep rate now acc t =
            (acc.1, acc.2 ++ [Event.pheromoneExpired t.id]) := by
          simp only [decayStep, if_pos h1]
        have hfn : decayFn rate now t = none := by
          simp only [decayFn, if_pos h1]
        rw [hs, ih]
        simp [List.filterMap_cons, hfn]
      · by_cases h2 : t.strength * (1 - rate) < 1/100
        · have hs : decayStep rate now acc t =
              (acc.1, acc.2 ++ [Event.pheromoneFaded t.id]) := by
            simp only [decayStep, if_neg h1, if_pos h2]
          have hfn : decayFn rate now t = none := by
            simp only [decayFn, if_neg h1, if_pos h2]
          rw [hs, ih]
          simp [List.filterMap_cons, hfn]
        · have hs : decayStep rate now acc t =
              (acc.1 ++ [{ t with strength := t.strength * (1 - rate) }], acc.2) := by
            simp only [decayStep, if_neg h1, if_neg h2]
          have hfn : decayFn rate now t =
              some { t with strength := t.strength * (1 - rate) } := by
            simp only [decayFn, if_neg h1, if_neg h2]
          rw [hs, ih]
          simp [List.filterMap_cons, hfn]

theorem pheromones_decayTick (s : SwarmState) (now : ℤ) :
    (decayTick s now).1.pheromones =
      s.pheromones.filterMap (decayFn (effRate s) now) := by
  unfold decayTick
  exact decay_foldl_kept (effRate s) now s.pheromones ([], [])

theorem decayFn_eq_some (rate : ℚ) (now : ℤ) (u t' : PheromoneTrail) :
    decayFn rate now u = some t' ↔
      (¬ u.expiresAt < now ∧ ¬ u.strength * (1 - rate) < 1/100 ∧
       t' = { u with strength := u.strength * (1 - rate) }) := by
  unfold decayFn
  by_cases h1 : u.expiresAt < now
  · simp [h1]
  · by_cases h2 : u.strength * (1 - rate) < 1/100 <;> simp [h1, h2, eq_comm]

theorem setTrail_append (l : List PheromoneTrail) (t : PheromoneTrail)
    (h : ∀ u ∈ l, ¬ u.id = t.id) : setTrail l t = l ++ [t] := by
  induction l with
  | nil => rfl
  | cons x xs ih =>
      unfold setTrail
      rw [if_neg (h x (List.mem_cons_self _ _))]
      rw [ih (fun u hu => h u (List.mem_cons_of_mem _ hu))]
      rfl

-- ==================== Concrete example states ====================

def exLoc : Location := { x := 0, y := 0, z := none }

def exMember (d : String) (c : ℤ) : SwarmMember :=
  { deviceId := d, role := Role.member, location := exLoc
    velocity := { vx := 0, vy := 0 }, state := MemberState.active
    assignedSector := none, lastUpdate := 0, contribution := c }

/-- A swarm in the `executing` state with nothing else going on. -/
def exBase : SwarmState :=
  { members := [], pheromones := [], actions := []
    state := SwarmLifecycle.executing, leaderId := none
    messages := 0, messagesExchanged := 0, minDevices := 1
    maxDevices := none, pheromoneDecay := none }

/-- An executing action with the single participant `"A"` and no
completion reports yet. -/
def exAction1 : CoordinatedAction :=
  { actionId := "a1", type := "move", target := exLoc
    formation := FormationType.circle, participants := ["A"]
    timing := ActionTiming.synchronized, status := ActionStatus.executing
    startTime := some 0, completedBy := [] }

-- ==================== Claims ====================

/-- C4: `Dissolve` (the module operation `dissolveSwarm`) is idempotent:
the first call on an existing swarm broadcasts once, reaches the
`dissolved` state, increments the message counter exactly once, and the
second call on the same swarm id is a no-op that changes nothing and
emits no notification. -/
theorem c4_dissolve_idempotent :
    (∀ (M : SwarmIntelligenceState) (sid : String),
       dissolveSwarm (dissolveSwarm M sid).1 sid = ((dissolveSwarm M sid).1, [])) ∧
    (∀ s : SwarmState,
       (dissolve s).1.state = SwarmLifecycle.dissolved ∧
       (dissolve s).2 = [Event.messageBroadcast, Event.swarmDissolved] ∧
       (dissolve s).1.messagesExchanged = s.messagesExchanged + 1) := by
  constructor
  · intro M sid
    cases hf : findSwarm M.swarms sid with
    | none => simp [dissolveSwarm, hf]
    | some s => simp [dissolveSwarm, hf, findSwarm_delSwarm_self]
  · intro s
    refine ⟨rfl, rfl, rfl⟩

/-- C10: `formSwarm` errors out (and creates no swarm) exactly when the
module already holds `maxSwarms` swarms — the count is the plain size of
the swarm map, so swarms already dissolved but not yet removed by
`dissolveSwarm` still count — and an unset `maxSwarms` defaults to 5. -/
theorem c10_formSwarm_limit (M : SwarmIntelligenceState) (fresh : String)
    (minD : ℕ) (maxD : Option ℕ) (dec : Option ℚ) :
    (M.maxSwarms ≤ M.swarms.length →
       formSwarm M fresh minD maxD dec =
         Except.error "Maximum swarm limit reached") ∧
    (M.swarms.length < M.maxSwarms →
       formSwarm M fresh minD maxD dec =
         Except.ok (fresh, { M with swarms := setSwarm M.swarms fresh (initSwarm (some M.deviceId) minD maxD dec) })) ∧
    (∀ dev, (mkSwarmIntelligence dev none).maxSwarms = 5) := by
  refine ⟨?_, ?_, fun dev => rfl⟩
  · intro hge
    simp [formSwarm, hge]
  · intro hlt
    simp [formSwarm, not_le.mpr hlt]

/-- An already-dissolved swarm still sitting in the module map. -/
def exDissolvedSwarm : SwarmState :=
  { initSwarm none 1 none none with state := SwarmLifecycle.dissolved }

/-- A module at its default limit of 5 swarms, all of them dissolved but
never removed through `dissolveSwarm`. -/
def exModule10 : SwarmIntelligenceState :=
  { deviceId := "me", maxSwarms := 5
    swarms := [("s1", exDissolvedSwarm), ("s2", exDissolvedSwarm),
               ("s3", exDissolvedSwarm), ("s4", exDissolvedSwarm),
               ("s5", exDissolvedSwarm)] }

/-- C10 witness: a module holding 5 dissolved swarms rejects a sixth. -/
theorem c10_formSwarm_limit_witness :
    exModule10.maxSwarms ≤ exModule10.swarms.length ∧
    (∀ s, s ∈ exModule10.swarms → s.2.state = SwarmLifecycle.dissolved) ∧
    formSwarm exModule10 "s6" 1 none none =
      Except.error "Maximum swarm limit reached" :=
  ⟨by decide, by decide,
   (c10_formSwarm_limit exModule10 "s6" 1 none none).1 (by decide)⟩

/-- The swarm of `exAction1` together with its only participant `"A"`. -/
def exState2 : SwarmState :=
  { exBase with actions := [exAction1], members := [exMember "A" 0] }

/-- C2 counterexample: after the sole participant `"A"` completes action
`"a1"` (first conjunct emits the completed notification), a duplicate
report from `"A"` emits the completed notification a second time,
contradicting "a notification fires exactly once ... no second completed
notification". -/
theorem c2_counterexample :
    Event.actionCompleted "a1" ∈ (reportActionComplete exState2 "A" "a1" true).2 ∧
    Event.actionCompleted "a1" ∈
      (reportActionComplete
        (reportActionComplete exState2 "A" "a1" true).1 "A" "a1" true).2 := by
  decide

/-- C2 (amended): once the completed-set size equals the participant
count, a further report that does not extend the completed-set — in
particular a duplicate report from an already-recorded member — leaves
the completed-set, the roster and the status value unchanged but
re-emits the `action:completed` notification, so the notification fires
again rather than exactly once; a further *successful* report from a
not-yet-recorded reporter instead extends the completed-set past the
participant count and emits no completed notification. -/
theorem c2_completed_notification_reemitted (s : SwarmState) (d aid : String)
    (succ : Bool) (a : CoordinatedAction)
    (ha : findAction s.actions aid = some a)
    (hq : a.completedBy.length = a.participants.length) :
    (¬ (succ = true ∧ ¬ d ∈ a.completedBy) →
      (reportActionComplete s d aid succ).2 =
        [Event.actionCompleted aid, Event.metricsUpdated] ∧
      findAction (reportActionComplete s d aid succ).1.actions aid =
        some { a with status := ActionStatus.completed } ∧
      (reportActionComplete s d aid succ).1.members = s.members) ∧
    ((succ = true ∧ ¬ d ∈ a.completedBy) →
      (reportActionComplete s d aid succ).2 = [Event.metricsUpdated] ∧
      findAction (reportActionComplete s d aid succ).1.actions aid =
        some { a with completedBy := a.completedBy ++ [d] }) := by
  have haid : a.actionId = aid := findAction_some_actionId _ _ _ ha
  constructor
  · intro hfs
    refine ⟨?_, ?_, ?_⟩
    · simp [reportActionComplete, ha, if_neg hfs, if_pos hq]
    · simp only [reportActionComplete, ha, if_neg hfs, if_pos hq]
      exact findAction_setAction s.actions aid _ haid
    · simp [reportActionComplete, ha, if_neg hfs, if_pos hq]
  · intro hfs
    have hq2 : ¬ (a.completedBy ++ [d]).length = a.participants.length := by
      simp [← hq]
    refine ⟨?_, ?_⟩
    · simp [reportActionComplete, ha, if_pos hfs, if_neg hq2]
      omega
    · simp only [reportActionComplete, ha, if_pos hfs, if_neg hq2]
      exact findAction_setAction s.actions aid _ haid

/-- The action of `exState2` once its only participant has reported. -/
def exAction1C : CoordinatedAction :=
  { exAction1 with status := ActionStatus.completed, completedBy := ["A"] }

def exState2C : SwarmState :=
  { exBase with actions := [exAction1C], members := [exMember "A" 10] }

/-- C2 witness: on the completed one-participant action of `exState2C`,
a duplicate report from the recorded `"A"` re-emits the notification
with nothing else changed, while a success from the unrecorded `"B"`
extends the completed-set and emits no completed notification. -/
theorem c2_completed_notification_reemitted_witness :
    (findAction exState2C.actions "a1" = some exAction1C ∧
     exAction1C.completedBy.length = exAction1C.participants.length) ∧
    ((reportActionComplete exState2C "A" "a1" true).2 =
       [Event.actionCompleted "a1", Event.metricsUpdated] ∧
     findAction (reportActionComplete exState2C "A" "a1" true).1.actions "a1" =
       some { exAction1C with status := ActionStatus.completed } ∧
     (reportActionComplete exState2C "A" "a1" true).1.members =
       exState2C.members) ∧
    ((reportActionComplete exState2C "B" "a1" true).2 = [Event.metricsUpdated] ∧
     findAction (reportActionComplete exState2C "B" "a1" true).1.actions "a1" =
       some { exAction1C with completedBy := exAction1C.completedBy ++ ["B"] }) :=
  ⟨⟨by decide, by decide⟩,
   (c2_completed_notification_reemitted exState2C "A" "a1" true exAction1C
      (by decide) (by decide)).1 (by decide),
   (c2_completed_notification_reemitted exState2C "B" "a1" true exAction1C
      (by decide) (by decide)).2 (by decide)⟩

def exState1 : SwarmState := { exBase with actions := [exAction1] }

/-- C1 counterexample: action `"a1"` has the participant set `["A"]`,
yet a successful report from the non-participant `"B"` makes the status
`completed` although the completed-set `["B"]` is not the participant
set — completion is decided by comparing sizes, not sets. -/
theorem c1_counterexample :
    findAction (reportActionComplete exState1 "B" "a1" true).1.actions "a1" =
      some { exAction1 with status := ActionStatus.completed
                            completedBy := ["B"] } ∧
    ¬ (["B"] : List String) = exAction1.participants ∧
    ¬ "B" ∈ exAction1.participants := by
  decide

/-- C1 (amended): the completed-set is monotone with no duplicates (a
member already recorded is not re-added), a successful first report
increments the reporter's contribution by exactly 10 when the reporter
is a current member (and changes no roster entry otherwise), and the
status becomes `completed` exactly when the *size* of the completed-set
equals the *size* of the participant set fixed at the action's start —
reports are not restricted to participants, so count equality rather
than set equality decides completion. -/
theorem c1_report_quorum_by_count (s : SwarmState) (d aid : String)
    (succ : Bool) (a : CoordinatedAction)
    (ha : findAction s.actions aid = some a) :
    ∃ a', findAction (reportActionComplete s d aid succ).1.actions aid = some a' ∧
      a'.participants = a.participants ∧
      a'.completedBy =
        (if succ = true ∧ ¬ d ∈ a.completedBy then a.completedBy ++ [d]
         else a.completedBy) ∧
      (a.completedBy.Nodup → a'.completedBy.Nodup) ∧
      a'.status =
        (if a'.completedBy.length = a.participants.length then ActionStatus.completed
         else a.status) ∧
      ((succ = true ∧ ¬ d ∈ a.completedBy) →
        contributionOf (reportActionComplete s d aid succ).1.members d =
          (contributionOf s.members d).map (fun c => c + 10)) ∧
      (¬ (succ = true ∧ ¬ d ∈ a.completedBy) →
        (reportActionComplete s d aid succ).1.members = s.members) := by
  have haid : a.actionId = aid := findAction_some_actionId _ _ _ ha
  by_cases hfs : succ = true ∧ ¬ d ∈ a.completedBy
  · by_cases hq : (a.completedBy ++ [d]).length = a.participants.length
    · refine ⟨{ a with completedBy := a.completedBy ++ [d]
                       status := ActionStatus.completed },
        ?_, rfl, by rw [if_pos hfs], ?_, by simp [hq], ?_, fun hn => absurd hfs hn⟩
      · simp only [reportActionComplete, ha, if_pos hfs, if_pos hq]
        exact findAction_setAction s.actions aid _ haid
      · intro hnd
        show (a.completedBy ++ [d]).Nodup
        rw [← List.concat_eq_append]
        exact List.Nodup.concat hfs.2 hnd
      · intro _
        simp only [reportActionComplete, ha, if_pos hfs]
        exact contributionOf_bump_self s.members d 10
    · have hq' : ¬ a.completedBy.length + 1 = a.participants.length := by
        simpa using hq
      refine ⟨{ a with completedBy := a.completedBy ++ [d] },
        ?_, rfl, by rw [if_pos hfs], ?_, by simp [hq'], ?_, fun hn => absurd hfs hn⟩
      · simp only [reportActionComplete, ha, if_pos hfs, if_neg hq]
        exact findAction_setAction s.actions aid _ haid
      · intro hnd
        show (a.completedBy ++ [d]).Nodup
        rw [← List.concat_eq_append]
        exact List.Nodup.concat hfs.2 hnd
      · intro _
        simp only [reportActionComplete, ha, if_pos hfs]
        exact contributionOf_bump_self s.members d 10
  · by_cases hq : a.completedBy.length = a.participants.length
    · refine ⟨{ a with status := ActionStatus.completed },
        ?_, rfl, by rw [if_neg hfs], fun hnd => hnd, by simp [hq],
        fun h => absurd h hfs, ?_⟩
      · simp only [reportActionComplete, ha, if_neg hfs, if_pos hq]
        exact findAction_setAction s.actions aid _ haid
      · intro _
        simp only [reportActionComplete, ha, if_neg hfs]
    · refine ⟨a, ?_, rfl, by rw [if_neg hfs], fun hnd => hnd, by simp [hq],
        fun h => absurd h hfs, ?_⟩
      · simp only [reportActionComplete, ha, if_neg hfs, if_neg hq]
        have := findAction_setAction s.actions aid a haid
        simpa using this
      · intro _
        simp only [reportActionComplete, ha, if_neg hfs]

/-- A two-participant action waiting for reports, with member `"A"` on
the roster. -/
def exAction1w : CoordinatedAction :=
  { exAction1 with actionId := "aw", participants := ["A", "B"] }

def exState1w : SwarmState :=
  { exBase with actions := [exAction1w], members := [exMember "A" 0] }

/-- C1 witness: member `"A"` successfully reports for the first time on
the two-participant action `"aw"`. -/
theorem c1_report_quorum_by_count_witness :
    findAction exState1w.actions "aw" = some exAction1w ∧
    (∃ a', findAction (reportActionComplete exState1w "A" "aw" true).1.actions "aw" =
        some a' ∧
      a'.participants = exAction1w.participants ∧
      a'.completedBy =
        (if true = true ∧ ¬ "A" ∈ exAction1w.completedBy
         then exAction1w.completedBy ++ ["A"] else exAction1w.completedBy) ∧
      (exAction1w.completedBy.Nodup → a'.completedBy.Nodup) ∧
      a'.status =
        (if a'.completedBy.length = exAction1w.participants.length
         then ActionStatus.completed else exAction1w.status) ∧
      ((true = true ∧ ¬ "A" ∈ exAction1w.completedBy) →
        contributionOf (reportActionComplete exState1w "A" "aw" true).1.members "A" =
          (contributionOf exState1w.members "A").map (fun c => c + 10)) ∧
      (¬ (true = true ∧ ¬ "A" ∈ exAction1w.completedBy) →
        (reportActionComplete exState1w "A" "aw" true).1.members =
          exState1w.members)) :=
  ⟨by decide,
   c1_report_quorum_by_count exState1w "A" "aw" true exAction1w (by decide)⟩

/-- A two-participant action with one report already recorded, its
participants on the roster. -/
def exAction3 : CoordinatedAction :=
  { exAction1 with actionId := "a3", participants := ["A", "B"]
                   completedBy := ["A"] }

def exState3 : SwarmState :=
  { exBase with actions := [exAction3]
                members := [exMember "A" 10, exMember "B" 0] }

/-- C3 counterexample: after the timeout fires (making `"a3"` `failed`
and emitting the timeout notification), a late successful report from
`"B"` is not ignored: it extends the completed-set, raises `"B"`'s
contribution from 0 to 10, and flips the status from `failed` to
`completed`. -/
theorem c3_counterexample :
    findAction (actionTimeoutFire exState3 "a3").1.actions "a3" =
      some { exAction3 with status := ActionStatus.failed } ∧
    (actionTimeoutFire exState3 "a3").2 = [Event.actionTimeout "a3"] ∧
    findAction
        (reportActionComplete (actionTimeoutFire exState3 "a3").1 "B" "a3" true).1.actions
        "a3" =
      some { exAction3 with status := ActionStatus.completed
                            completedBy := ["A", "B"] } ∧
    contributionOf
        (reportActionComplete (actionTimeoutFire exState3 "a3").1 "B" "a3" true).1.members
        "B" = some 10 := by
  decide

/-- C3 (amended): when the armed timeout fires while the action is still
`executing` the status becomes `failed` and the timeout notification is
emitted; however, completion reports arriving afterwards are *not*
ignored — a successful report from a not-yet-recorded member still
extends the completed-set, still bumps the reporter's contribution by
10, and, once the completed-set size reaches the participant count,
overwrites the status with `completed` and emits the completed
notification (otherwise the late report emits only the metrics
notification). -/
theorem c3_timeout_late_reports_processed :
    (∀ (s : SwarmState) (aid : String) (a : CoordinatedAction),
       findAction s.actions aid = some a →
       a.status = ActionStatus.executing →
       findAction (actionTimeoutFire s aid).1.actions aid =
           some { a with status := ActionStatus.failed } ∧
         (actionTimeoutFire s aid).2 = [Event.actionTimeout aid]) ∧
    (∀ (s : SwarmState) (d aid : String) (a : CoordinatedAction),
       findAction s.actions aid = some a →
       a.status = ActionStatus.failed →
       ¬ d ∈ a.completedBy →
       ∃ a', findAction (reportActionComplete s d aid true).1.actions aid = some a' ∧
         a'.completedBy = a.completedBy ++ [d] ∧
         contributionOf (reportActionComplete s d aid true).1.members d =
           (contributionOf s.members d).map (fun c => c + 10) ∧
         a'.status =
           (if (a.completedBy ++ [d]).length = a.participants.length
            then ActionStatus.completed else ActionStatus.failed) ∧
         (reportActionComplete s d aid true).2 =
           (if (a.completedBy ++ [d]).length = a.participants.length
            then [Event.actionCompleted aid, Event.metricsUpdated]
            else [Event.metricsUpdated])) := by
  constructor
  · intro s aid a ha hex
    have haid : a.actionId = aid := findAction_some_actionId _ _ _ ha
    simp only [actionTimeoutFire, ha, if_pos hex]
    exact ⟨findAction_setAction s.actions aid _ haid, trivial⟩
  · intro s d aid a ha hfail hnd
    have haid : a.actionId = aid := findAction_some_actionId _ _ _ ha
    simp only [reportActionComplete, ha]
    split_ifs with h1 h2
    · exact ⟨_, findAction_setAction s.actions aid _ haid, rfl,
        contributionOf_bump_self s.members d 10, rfl, rfl⟩
    · exact ⟨_, findAction_setAction s.actions aid _ haid, rfl,
        contributionOf_bump_self s.members d 10, hfail, rfl⟩
    all_goals exact absurd (by simpa using h1) hnd

/-- The failed action after the timeout of `exState3` fired. -/
def exAction3F : CoordinatedAction :=
  { exAction3 with status := ActionStatus.failed }

def exState3F : SwarmState := (actionTimeoutFire exState3 "a3").1

/-- C3 witness: the timeout part applied to the still-executing action
`"a3"`, and the late-report part applied to the failed action obtained
from it. -/
theorem c3_timeout_late_reports_processed_witness :
    (findAction exState3.actions "a3" = some exAction3 ∧
     exAction3.status = ActionStatus.executing ∧
     findAction (actionTimeoutFire exState3 "a3").1.actions "a3" =
         some { exAction3 with status := ActionStatus.failed } ∧
       (actionTimeoutFire exState3 "a3").2 = [Event.actionTimeout "a3"]) ∧
    (∃ a', findAction
          (reportActionComplete exState3F "B" "a3" true).1.actions "a3" =
            some a' ∧
        a'.completedBy = exAction3F.completedBy ++ ["B"] ∧
        contributionOf (reportActionComplete exState3F "B" "a3" true).1.members "B" =
          (contributionOf exState3F.members "B").map (fun c => c + 10) ∧
        a'.status =
          (if (exAction3F.completedBy ++ ["B"]).length = exAction3F.participants.length
           then ActionStatus.completed else ActionStatus.failed) ∧
        (reportActionComplete exState3F "B" "a3" true).2 =
          (if (exAction3F.completedBy ++ ["B"]).length = exAction3F.participants.length
           then [Event.actionCompleted "a3", Event.metricsUpdated]
           else [Event.metricsUpdated])) :=
  ⟨⟨by decide, by decide,
    c3_timeout_late_reports_processed.1 exState3 "a3" exAction3
      (by decide) (by decide)⟩,
   c3_timeout_late_reports_processed.2 exState3F "B" "a3" exAction3F
     (by decide) (by decide) (by decide)⟩

def exState5 : SwarmState := initSwarm none 1 none none

/-- C5 counterexample: in a fresh swarm, `"A"` joins (becoming leader)
and then leaves as the last member; the leader reference still names
`"A"` although the member set is empty, so a set leader reference does
not always identify a current member. -/
theorem c5_counterexample :
    (applyOps exState5
      [SwarmOp.opJoin "A" exLoc none 0, SwarmOp.opLeave "A"]).leaderId =
        some "A" ∧
    (applyOps exState5
      [SwarmOp.opJoin "A" exLoc none 0, SwarmOp.opLeave "A"]).members = [] := by
  decide

/-- C5 (amended): starting from a swarm whose leader reference, if set,
already names a current member and whose contributions are nonnegative
(both hold for a fresh swarm with no pre-assigned leader), after every
sequence of operations in which no `Leave` removes the last remaining
member, the leader reference, if set, identifies a current member. -/
theorem c5_leader_references_member (s : SwarmState) (ops : List SwarmOp)
    (hL : leaderOK s) (hC : contribsOK s.members) (hT : goodTrace s ops) :
    leaderOK (applyOps s ops) :=
  (applyOps_leader_inv ops s hL hC hT).1

def exOps5 : List SwarmOp :=
  [SwarmOp.opJoin "A" exLoc none 0, SwarmOp.opJoin "B" exLoc none 0,
   SwarmOp.opLeave "A"]

/-- C5 witness: `"A"` joins and becomes leader, `"B"` joins, then the
leader `"A"` leaves with `"B"` remaining; the invariant holds along this
trace. -/
theorem c5_leader_references_member_witness :
    goodTrace exState5 exOps5 ∧ leaderOK (applyOps exState5 exOps5) :=
  ⟨⟨trivial, trivial, fun h => absurd h (by decide), trivial⟩,
   c5_leader_references_member exState5 exOps5
     (fun l hl => by simp [exState5, initSwarm] at hl)
     (fun m hm => by simp [exState5, initSwarm] at hm)
     ⟨trivial, trivial, fun h => absurd h (by decide), trivial⟩⟩

/-- C6: when the current leader `d` leaves and members remain, the code
elects the remaining member with the highest contribution, ties broken
by earliest roster position (join order) — the election result is the
first member of the remaining roster whose contribution is strictly
above everything before it and at least everything after it — and a
`leader:elected` notification is emitted. -/
theorem c6_leave_elects_max_contribution (s : SwarmState) (d : String)
    (mm x : SwarmMember) (rest : List SwarmMember)
    (hld : s.leaderId = some d) (hf : findMember s.members d = some mm)
    (hC : contribsOK s.members)
    (hdel : delMember s.members d = x :: rest) :
    ∃ c p q, delMember s.members d = p ++ c :: q ∧
      (∀ y ∈ p, y.contribution < c.contribution) ∧
      (∀ y ∈ q, y.contribution ≤ c.contribution) ∧
      (leave s d).1.leaderId = some c.deviceId ∧
      Event.leaderElected c.deviceId ∈ (leave s d).2 := by
  have helect : s.leaderId = some d ∧ 0 < (delMember s.members d).length :=
    ⟨hld, by rw [hdel]; simp⟩
  have hCdel : contribsOK (delMember s.members d) :=
    contribsOK_delMember s.members d hC
  have hCx : contribsOK (x :: rest) := by rw [← hdel]; exact hCdel
  obtain ⟨c, p, q, hdecomp, hpick, hp, hq⟩ := pickLeader_char x rest hCx
  have hpick' : pickLeader (delMember s.members d) = some c := by
    rw [hdel]; exact hpick
  refine ⟨c, p, q, by rw [hdel]; exact hdecomp, hp, hq, ?_, ?_⟩
  · simp [leave, hf, if_pos helect, hpick']
  · simp [leave, hf, if_pos helect, hpick']

/-- A three-member swarm led by `"L"` in which `"A"` has contribution 10
and `"B"` has contribution 20. -/
def exState6 : SwarmState :=
  { exBase with
      members := [{ exMember "L" 0 with role := Role.leader },
                  exMember "A" 10, exMember "B" 20]
      leaderId := some "L" }

/-- C6 witness: removing leader `"L"` from `exState6` elects `"B"`, the
remaining member with the highest contribution. -/
theorem c6_leave_elects_max_contribution_witness :
    (leave exState6 "L").1.leaderId = some "B" ∧
    (∃ c p q, delMember exState6.members "L" = p ++ c :: q ∧
      (∀ y ∈ p, y.contribution < c.contribution) ∧
      (∀ y ∈ q, y.contribution ≤ c.contribution) ∧
      (leave exState6 "L").1.leaderId = some c.deviceId ∧
      Event.leaderElected c.deviceId ∈ (leave exState6 "L").2) :=
  ⟨by decide,
   c6_leave_elects_max_contribution exState6 "L"
     { exMember "L" 0 with role := Role.leader }
     (exMember "A" 10) [exMember "B" 20]
     (by decide) (by decide) (by decide) (by decide)⟩

def exState7 : SwarmState := initSwarm none 1 (some 0) none

/-- C7 counterexample: a swarm configured with maximum member count 0 is
at (indeed over) capacity with any member, yet `join` accepts `"A"` and
returns `true`: a configured maximum of 0 is falsy in JS and imposes no
cap, so the member count exceeds the configured maximum. -/
theorem c7_counterexample :
    exState7.maxDevices = some 0 ∧
    (join exState7 "A" exLoc none 0).1 = true ∧
    (join exState7 "A" exLoc none 0).2.1.members.length = 1 := by
  decide

/-- C7 (amended): for a configured *nonzero* maximum `m`, the member
count never exceeds `m` over any sequence of operations, and a `join`
attempted at capacity, or on a dissolved swarm, returns `false` and
leaves the swarm unchanged. -/
theorem c7_capacity_invariant (s : SwarmState) (ops : List SwarmOp) (m : ℕ)
    (hm : s.maxDevices = some m) (h0 : 0 < m)
    (hlen : s.members.length ≤ m) :
    (applyOps s ops).members.length ≤ m ∧
    (∀ d loc role? now, m ≤ s.members.length →
        join s d loc role? now = (false, s, [])) ∧
    (s.state = SwarmLifecycle.dissolved →
        ∀ d loc role? now, join s d loc role? now = (false, s, [])) := by
  refine ⟨applyOps_length_le ops s m hm h0 hlen, ?_, ?_⟩
  · intro d loc role? now hge
    have hcap : capacityFull s := by
      simp only [capacityFull, hm]
      exact ⟨Nat.pos_iff_ne_zero.mp h0, hge⟩
    by_cases hdis : s.state = SwarmLifecycle.dissolved
    · simp [join, hdis]
    · simp [join, hdis, hcap]
  · intro hdis d loc role? now
    simp [join, hdis]

/-- A swarm with maximum 2 already holding two members. -/
def exState7w : SwarmState :=
  { initSwarm none 1 (some 2) none with
      members := [exMember "A" 0, exMember "B" 0] }

/-- C7 witness: with maximum 2 and two members, a join of `"C"` (also as
part of a trace) is rejected and the count stays at 2. -/
theorem c7_capacity_invariant_witness :
    (exState7w.maxDevices = some 2 ∧ 0 < 2 ∧ exState7w.members.length ≤ 2) ∧
    ((applyOps exState7w [SwarmOp.opJoin "C" exLoc none 0]).members.length ≤ 2 ∧
     (∀ d loc role? now, 2 ≤ exState7w.members.length →
        join exState7w d loc role? now = (false, exState7w, [])) ∧
     (exState7w.state = SwarmLifecycle.dissolved →
        ∀ d loc role? now, join exState7w d loc role? now = (false, exState7w, []))) :=
  ⟨⟨rfl, by decide, by decide⟩,
   c7_capacity_invariant exState7w [SwarmOp.opJoin "C" exLoc none 0] 2
     rfl (by decide) (by decide)⟩

/-- A trail of strength 1 expiring at time 100. -/
def exTrail8 : PheromoneTrail :=
  { id := "t1", path := [exLoc], strength := 1, type := PheromoneType.success
    createdBy := "A", createdAt := 0, expiresAt := 100 }

/-- A swarm configured with pheromone decay rate 0 holding `exTrail8`. -/
def exState8z : SwarmState :=
  { exBase with pheromones := [exTrail8], pheromoneDecay := some 0 }

/-- C8 counterexample: with a configured decay rate of 0 the claim
prescribes multiplication by `(1 − 0) = 1`, i.e. an unchanged strength
of 1, but the code treats the falsy rate 0 as unset and decays the
trail to 9/10. -/
theorem c8_counterexample :
    exState8z.pheromoneDecay = some 0 ∧
    (decayTick exState8z 0).1.pheromones = [{ exTrail8 with strength := 9/10 }] ∧
    ¬ (9 : ℚ)/10 = exTrail8.strength * (1 - 0) := by
  refine ⟨rfl, ?_, by norm_num [exTrail8]⟩
  rw [pheromones_decayTick]
  norm_num [List.filterMap_cons, decayFn, effRate, exState8z, exTrail8, exBase]

/-- C8 (amended): on a decay tick with effective rate `r` — the
configured rate, except that a configured rate of 0 is treated as unset
and, like an absent configuration, falls back to the default 1/10 —
every stored trail that has not passed its expiry has its strength
multiplied by `(1 − r)`, and a trail is removed exactly when its expiry
timestamp has passed or its decayed strength falls below 1/100,
whichever happens first. -/
theorem c8_decay_tick_spec (s : SwarmState) (now : ℤ)
    (hnd : (s.pheromones.map (fun t => t.id)).Nodup) :
    (∀ t ∈ s.pheromones, ¬ t.expiresAt < now →
       ¬ t.strength * (1 - effRate s) < 1/100 →
       { t with strength := t.strength * (1 - effRate s) } ∈
         (decayTick s now).1.pheromones) ∧
    (∀ t ∈ s.pheromones,
       (t.expiresAt < now ∨ t.strength * (1 - effRate s) < 1/100) →
       ∀ t' ∈ (decayTick s now).1.pheromones, ¬ t'.id = t.id) ∧
    (∀ t' ∈ (decayTick s now).1.pheromones, ∃ t ∈ s.pheromones,
       t' = { t with strength := t.strength * (1 - effRate s) } ∧
       ¬ t.expiresAt < now ∧ ¬ t.strength * (1 - effRate s) < 1/100) := by
  refine ⟨?_, ?_, ?_⟩
  · intro t ht h1 h2
    rw [pheromones_decayTick]
    exact List.mem_filterMap.mpr
      ⟨t, ht, (decayFn_eq_some (effRate s) now t _).mpr ⟨h1, h2, rfl⟩⟩
  · intro t ht hrem t' ht' hid
    rw [pheromones_decayTick] at ht'
    obtain ⟨u, hu, hdu⟩ := List.mem_filterMap.mp ht'
    obtain ⟨hu1, hu2, hu3⟩ := (decayFn_eq_some (effRate s) now u t').mp hdu
    have huid : u.id = t.id := by rw [← hid, hu3]
    have hut : u = t := List.inj_on_of_nodup_map hnd hu ht huid
    subst hut
    rcases hrem with hrem | hrem
    · exact hu1 hrem
    · exact hu2 hrem
  · intro t' ht'
    rw [pheromones_decayTick] at ht'
    obtain ⟨u, hu, hdu⟩ := List.mem_filterMap.mp ht'
    obtain ⟨hu1, hu2, hu3⟩ := (decayFn_eq_some (effRate s) now u t').mp hdu
    exact ⟨u, hu, hu3, hu1, hu2⟩

/-- A swarm with no configured decay rate (so the default 1/10 applies)
holding `exTrail8`. -/
def exState8d : SwarmState := { exBase with pheromones := [exTrail8] }

/-- C8 witness: the fresh strength-1 trail survives the tick at time 0
with strength `1 · (1 − 1/10) = 9/10`. -/
theorem c8_decay_tick_spec_witness :
    ((exState8d.pheromones.map (fun t => t.id)).Nodup ∧
     exTrail8.strength * (1 - effRate exState8d) = 9/10) ∧
    { exTrail8 with strength := exTrail8.strength * (1 - effRate exState8d) } ∈
      (decayTick exState8d 0).1.pheromones :=
  ⟨⟨by decide, by norm_num [exTrail8, effRate, exState8d, exBase]⟩,
   (c8_decay_tick_spec exState8d 0 (by decide)).1 exTrail8
     (by decide) (by decide)
     (by norm_num [exTrail8, effRate, exState8d, exBase])⟩

/-- A dissolved swarm with member `"A"` on the roster. -/
def exState9 : SwarmState :=
  { exBase with state := SwarmLifecycle.dissolved
                members := [exMember "A" 0] }

/-- C9: `depositPheromone` performs no swarm-state check: for every
swarm state (the state field of `s` is arbitrary, so this covers
`dispersing` and `dissolved`), it stores the new trail, returns it,
emits the deposited notification, leaves the lifecycle state untouched,
and increments the creator's contribution by exactly 5 when the creator
is a current member, leaving the roster unchanged otherwise. -/
theorem c9_deposit_ignores_state (s : SwarmState) (fresh d : String)
    (path : List Location) (ty : PheromoneType) (strength : ℚ) (now : ℤ)
    (hfresh : ∀ t ∈ s.pheromones, ¬ t.id = fresh) :
    (depositPheromone s fresh d path ty strength now).1 =
      { id := fresh, path := path, strength := strength, type := ty
        createdBy := d, createdAt := now, expiresAt := now + 60000 } ∧
    (depositPheromone s fresh d path ty strength now).2.1.pheromones =
      s.pheromones ++ [(depositPheromone s fresh d path ty strength now).1] ∧
    (depositPheromone s fresh d path ty strength now).2.2 =
      [Event.pheromoneDeposited fresh] ∧
    (depositPheromone s fresh d path ty strength now).2.1.state = s.state ∧
    contributionOf (depositPheromone s fresh d path ty strength now).2.1.members d =
      (contributionOf s.members d).map (fun c => c + 5) ∧
    (findMember s.members d = none →
      (depositPheromone s fresh d path ty strength now).2.1.members = s.members) := by
  refine ⟨rfl, ?_, rfl, rfl, ?_, ?_⟩
  · simp only [depositPheromone]
    exact setTrail_append s.pheromones _ hfresh
  · cases hfm : findMember s.members d with
    | none =>
        simp only [depositPheromone, hfm]
        simp [contributionOf, hfm]
    | some mm =>
        simp only [depositPheromone, hfm]
        exact contributionOf_bump_self s.members d 5
  · intro hfm
    simp only [depositPheromone, hfm]

/-- C9 witness: a deposit on the dissolved swarm `exState9` stores,
returns and notifies the trail and bumps member `"A"` from 0 to 5. -/
theorem c9_deposit_ignores_state_witness :
    (exState9.state = SwarmLifecycle.dissolved ∧
     (∀ t ∈ exState9.pheromones, ¬ t.id = "p1")) ∧
    ((depositPheromone exState9 "p1" "A" [exLoc] PheromoneType.success 1 0).1 =
      { id := "p1", path := [exLoc], strength := 1, type := PheromoneType.success
        createdBy := "A", createdAt := 0, expiresAt := 60000 } ∧
     (depositPheromone exState9 "p1" "A" [exLoc] PheromoneType.success 1 0).2.1.pheromones =
       exState9.pheromones ++
         [(depositPheromone exState9 "p1" "A" [exLoc] PheromoneType.success 1 0).1] ∧
     (depositPheromone exState9 "p1" "A" [exLoc] PheromoneType.success 1 0).2.2 =
       [Event.pheromoneDeposited "p1"] ∧
     (depositPheromone exState9 "p1" "A" [exLoc] PheromoneType.success 1 0).2.1.state =
       exState9.state ∧
     contributionOf
         (depositPheromone exState9 "p1" "A" [exLoc] PheromoneType.success 1 0).2.1.members
         "A" =
       (contributionOf exState9.members "A").map (fun c => c + 5) ∧
     (findMember exState9.members "A" = none →
       (depositPheromone exState9 "p1" "A" [exLoc] PheromoneType.success 1 0).2.1.members =
         exState9.members)) :=
  ⟨⟨rfl, by decide⟩,
   c9_deposit_ignores_state exState9 "p1" "A" [exLoc] PheromoneType.success 1 0
     (by decide)⟩

end AutoGridSwarm
